import Mathlib

/-!
Shallow embedding of the drag-state tracking core of the file-drop-target
widget. The primary source is the component variant carrying the
isDraggingOver / isDragging / isDropped flags (src/unnamed/part_000),
together with the root-scoped listener wiring and the dragOver handler it
shares with src/addon/components/file-drop-target.js.

Modelling conventions:
* DOM elements are identified by natural numbers; the jQuery per-element
  data store is an association list from string keys to integers.
* dragenter and dragleave events carry their originating element; the
  ancestor chain (outermost first, ending with the element itself) and the
  file-drop-target class membership are abstracted by a Dom record.
* Each mounted component instance binds one handler on the root scope
  (setupEventListeners). jQuery namespaces only scope unbinding, not
  firing: every bound handler fires for every event, in binding order,
  which dispatchEvent reproduces by folding over the registry.
* A File is its identity plus its declared MIME type string; the
  allowedTypes regular expression test is abstracted by a boolean
  predicate on that string.
* Visual class toggles are ignored; the boolean flags that the class
  bindings mirror are kept.
-/

namespace FileDropTarget

abbrev Elem := Nat

/-- Per-element jQuery data store: string keys to integer values, the most
recent write listed first. -/
abbrev ElemData := List (String × Int)

def dataGet (s : ElemData) (k : String) : Option Int :=
  (s.find? (fun p => p.1 == k)).map (fun p => p.2)

def dataSet (s : ElemData) (k : String) (v : Int) : ElemData :=
  (k, v) :: s

def dataRemove (s : ElemData) (k : String) : ElemData :=
  s.filter (fun p => !(p.1 == k))

/-- Key under which calculateDropCount stores the hover counter. -/
def dragKey : String := "dragcount"

/-- Key which getDropEffect reads. Note this differs from dragKey, exactly
as the two string literals differ in the source. -/
def dropKey : String := "dropcount"

/-- Hover counter of one element, defaulting to 0 when the key is absent,
mirroring the expression used by calculateDropCount. -/
def dragcountOf (s : ElemData) : Int :=
  (dataGet s dragKey).getD 0

inductive EvKind where
  | enter
  | leave
deriving DecidableEq, Repr

def flipKind : EvKind → EvKind
  | EvKind.enter => EvKind.leave
  | EvKind.leave => EvKind.enter

/-- Offset added to each counter: +1 on dragenter, -1 on dragleave. -/
def offsetInt : EvKind → Int
  | EvKind.enter => 1
  | EvKind.leave => -1

structure DragEvent where
  kind : EvKind
  target : Elem
deriving DecidableEq, Repr

/-- Static page structure: the root element, each element's ancestor chain
in document order (outermost ancestor first, the element itself last), and
which elements carry the file-drop-target class. -/
structure Dom where
  root : Elem
  chain : Elem → List Elem
  isTarget : Elem → Bool

/-- The element list traversed by one calculateDropCount pass: the event
target plus its ancestors, filtered down to file-drop-target elements,
with the root element added (in document order, so the root comes first
when it is not already in the filtered chain). -/
def resolveTargets (dom : Dom) (t : Elem) : List Elem :=
  let cs := (dom.chain t).filter dom.isTarget
  if dom.root ∈ cs then cs else dom.root :: cs

structure File where
  fid : Nat
  ftype : String
deriving DecidableEq, Repr

/-- Component-instance state: the flag and output fields of the component.
The isLoading and isLoaded fields are consumer-set inputs read by the
isEmpty computed property. -/
structure Comp where
  isDraggingOver : Bool
  isDragging : Bool
  isDropped : Bool
  isLoading : Bool
  isLoaded : Bool
  file : Option File
  files : Option (List File)
deriving DecidableEq, Repr

def initComp : Comp :=
  { isDraggingOver := false, isDragging := false, isDropped := false,
    isLoading := false, isLoaded := false, file := none, files := none }

abbrev DataMap := Elem → ElemData

/-- One iteration of the each loop inside calculateDropCount: bump the
current element's counter and invoke didDragOverRoot / didDragOffRoot when
the element is the root, didDragOver / didDragOff otherwise, on the
handler's own instance. -/
def applyElem (dom : Dom) (ev : DragEvent) (s : DataMap × Comp) (el : Elem) : DataMap × Comp :=
  let dragCount := dragcountOf (s.1 el) + offsetInt ev.kind
  let d : DataMap := fun e => if e = el then dataSet (s.1 el) dragKey dragCount else s.1 e
  let c :=
    if 0 < dragCount then
      if el = dom.root then { s.2 with isDragging := true }
      else { s.2 with isDraggingOver := true }
    else
      if el = dom.root then { s.2 with isDragging := false }
      else { s.2 with isDraggingOver := false }
  (d, c)

/-- One invocation of the calculateDropCount handler of one instance. -/
def calculateDropCount (dom : Dom) (ev : DragEvent) (s : DataMap × Comp) : DataMap × Comp :=
  (resolveTargets dom ev.target).foldl (applyElem dom ev) s

/-- Run the handler of a single instance over a sequence of events. -/
def run1 (dom : Dom) (evs : List DragEvent) (s : DataMap × Comp) : DataMap × Comp :=
  evs.foldl (fun t ev => calculateDropCount dom ev t) s

/-- Whole-page state: the shared per-element data, the root-scoped handler
registrations in binding order (instance ids; a duplicated id is a doubly
bound handler), and each instance's component state. -/
structure Page where
  data : DataMap
  registry : List Nat
  comps : Nat → Comp

def initialPage (reg : List Nat) : Page :=
  { data := fun _ => [], registry := reg, comps := fun _ => initComp }

/-- The didInsertElement hook: binds the instance's dragenter/dragleave
handler on the root scope. jQuery .on always appends. -/
def setupEventListeners (i : Nat) (p : Page) : Page :=
  { p with registry := p.registry ++ [i] }

/-- Browser dispatch of one dragenter/dragleave event: every bound
root-scope handler fires, in binding order. -/
def dispatchEvent (dom : Dom) (ev : DragEvent) (p : Page) : Page :=
  p.registry.foldl
    (fun q i =>
      let s := calculateDropCount dom ev (q.data, q.comps i)
      { q with data := s.1, comps := fun j => if j = i then s.2 else q.comps j })
    p

def dispatchEvents (dom : Dom) (evs : List DragEvent) (p : Page) : Page :=
  evs.foldl (fun q ev => dispatchEvent dom ev q) p

/-- getDropEffect, as written in the source: reads the dropcount key of the
component element's data store. -/
def getDropEffect (s : ElemData) : String :=
  if 0 < (dataGet s dropKey).getD 0 then "copy" else "none"

structure DragOverResult where
  preventDefault : Bool
  dropEffect : String
deriving DecidableEq, Repr

/-- The dragOver handler: suppresses the default action and reports the
dropEffect computed by getDropEffect from the element's data store. -/
def dragOver (s : ElemData) : DragOverResult :=
  { preventDefault := true, dropEffect := getDropEffect s }

structure Config where
  allowMultiple : Bool
  typeMatches : String → Bool

/-- The truncation step of the drop handler: when more than one file is
present and multiple selection is not allowed, keep only the first file. -/
def coerceFiles (allowMultiple : Bool) (files : List File) : List File :=
  if 1 < files.length && !allowMultiple then files.take 1 else files

/-- Result of the drop handler: the shared data store after the counter
reset, the component state, and the callback invocation lists (invalid
file type notifications and accepted file deliveries, each in call
order). -/
structure DropResult where
  data : DataMap
  comp : Comp
  invalidCalls : List File
  droppedCalls : List File

/-- The drop handler: reset this instance's flags and every tracked
element's counter, bail out on an empty file list, truncate when multiple
selection is not allowed, filter by the declared MIME type (notifying per
rejected file), mark isDropped, deliver each accepted file, and expose the
accepted set as files or file depending on allowMultiple. -/
def drop (dom : Dom) (cfg : Config) (d : DataMap) (c : Comp) (files : List File) : DropResult :=
  let c0 := { c with isDraggingOver := false, isDragging := false }
  let d0 : DataMap := fun e => if dom.isTarget e || e = dom.root then dataRemove (d e) dragKey else d e
  if files.length = 0 then
    { data := d0, comp := c0, invalidCalls := [], droppedCalls := [] }
  else
    let kept := coerceFiles cfg.allowMultiple files
    let invalid := kept.filter (fun f => !cfg.typeMatches f.ftype)
    let accepted := kept.filter (fun f => cfg.typeMatches f.ftype)
    let c1 := { c0 with isDropped := true }
    let c2 :=
      if cfg.allowMultiple then { c1 with files := some accepted }
      else { c1 with file := accepted.head? }
    { data := d0, comp := c2, invalidCalls := invalid, droppedCalls := accepted }

/-- The isEmpty computed property. -/
def isEmpty (c : Comp) : Bool :=
  !(c.isLoading || c.isLoaded)

/-- A sequence of events is pairwise balanced per element when every enter
at an element is matched by a leave at the same element. -/
def Balanced (evs : List DragEvent) : Prop :=
  ∀ t : Elem, evs.count ⟨EvKind.enter, t⟩ = evs.count ⟨EvKind.leave, t⟩

/-- Net contribution of a sequence of events to one element's counter
under a single handler. -/
def netDelta (dom : Dom) (evs : List DragEvent) (el : Elem) : Int :=
  (evs.map (fun ev => offsetInt ev.kind * ((resolveTargets dom ev.target).count el : Int))).sum

/-- Concrete page with two sibling drop targets (elements 1 and 2) under
the root element 0. -/
def domSib : Dom :=
  { root := 0,
    chain := fun t => if t = 1 then [0, 1] else if t = 2 then [0, 2] else [t],
    isTarget := fun e => e == 1 || e == 2 }

/-- Concrete page with a drop target (element 2) nested inside another
drop target (element 1) under the root element 0. -/
def domNest : Dom :=
  { root := 0,
    chain := fun t => if t = 1 then [0, 1] else if t = 2 then [0, 1, 2] else [t],
    isTarget := fun e => e == 1 || e == 2 }

/-! Basic facts about the per-element data store. -/

theorem dataGet_dataSet (s : ElemData) (k : String) (v : Int) :
    dataGet (dataSet s k v) k = some v := by
  simp [dataGet, dataSet]

theorem dragcountOf_dataSet (s : ElemData) (v : Int) :
    dragcountOf (dataSet s dragKey v) = v := by
  simp [dragcountOf, dataGet_dataSet]

theorem dataGet_dataRemove (s : ElemData) (k : String) :
    dataGet (dataRemove s k) k = none := by
  have h : (dataRemove s k).find? (fun p => p.1 == k) = none := by
    rw [List.find?_eq_none]
    intro x hx
    have hx2 := List.of_mem_filter hx
    simpa using hx2
  simp [dataGet, h]

/-! Counter arithmetic of the calculateDropCount fold. -/

theorem dragcountOf_applyElem (dom : Dom) (ev : DragEvent) (s : DataMap × Comp) (x el : Elem) :
    dragcountOf ((applyElem dom ev s x).1 el) =
      dragcountOf (s.1 el) + (if el = x then offsetInt ev.kind else 0) := by
  rcases eq_or_ne el x with h | h
  · subst h
    simp [applyElem, dragcountOf_dataSet]
  · simp [applyElem, h]

theorem dragcountOf_foldl (dom : Dom) (ev : DragEvent) (l : List Elem) (s : DataMap × Comp)
    (el : Elem) :
    dragcountOf ((l.foldl (applyElem dom ev) s).1 el) =
      dragcountOf (s.1 el) + offsetInt ev.kind * (l.count el : Int) := by
  induction l generalizing s with
  | nil => simp
  | cons x xs ih =>
      rw [List.foldl_cons, ih, dragcountOf_applyElem]
      rcases eq_or_ne el x with h | h
      · subst h
        rw [List.count_cons_self]
        simp only [if_pos rfl]
        push_cast
        ring
      · rw [List.count_cons_of_ne h]
        simp [h]

theorem dragcountOf_calc (dom : Dom) (ev : DragEvent) (s : DataMap × Comp) (el : Elem) :
    dragcountOf ((calculateDropCount dom ev s).1 el) =
      dragcountOf (s.1 el) +
        offsetInt ev.kind * ((resolveTargets dom ev.target).count el : Int) :=
  dragcountOf_foldl dom ev _ s el

theorem dragcountOf_run1 (dom : Dom) (evs : List DragEvent) (s : DataMap × Comp) (el : Elem) :
    dragcountOf ((run1 dom evs s).1 el) = dragcountOf (s.1 el) + netDelta dom evs el := by
  induction evs generalizing s with
  | nil => simp [run1, netDelta]
  | cons e es ih =>
      have h1 : run1 dom (e :: es) s = run1 dom es (calculateDropCount dom e s) := rfl
      rw [h1, ih, dragcountOf_calc]
      simp [netDelta]
      ring

/-! A per-element balanced sequence contributes a net of zero to every
counter: pair each enter with the matching leave at the same element. -/

theorem flipKind_ne (k : EvKind) : flipKind k ≠ k := by
  cases k <;> simp [flipKind]

theorem flipKind_flipKind (k : EvKind) : flipKind (flipKind k) = k := by
  cases k <;> rfl

theorem offsetInt_flipKind (k : EvKind) : offsetInt (flipKind k) = -offsetInt k := by
  cases k <;> rfl

theorem count_flip (evs : List DragEvent) (h : Balanced evs) (a : DragEvent) :
    evs.count ⟨flipKind a.kind, a.target⟩ = evs.count a := by
  obtain ⟨k, t⟩ := a
  cases k
  · exact (h t).symm
  · exact h t

theorem balanced_netDelta (dom : Dom) (evs : List DragEvent) (el : Elem) (h : Balanced evs) :
    netDelta dom evs el = 0 := by
  unfold netDelta
  rw [Finset.sum_list_map_count]
  refine Finset.sum_involution (fun a _ => ⟨flipKind a.kind, a.target⟩) ?_ ?_ ?_ ?_
  · intro a ha
    have hg : offsetInt (flipKind a.kind) * ((resolveTargets dom a.target).count el : Int) =
        -(offsetInt a.kind * ((resolveTargets dom a.target).count el : Int)) := by
      rw [offsetInt_flipKind]
      ring
    show evs.count a • _ + evs.count _ • _ = 0
    rw [count_flip evs h a, hg, nsmul_eq_mul, nsmul_eq_mul]
    ring
  · intro a ha hne heq
    exact flipKind_ne a.kind (congrArg DragEvent.kind heq)
  · intro a ha
    rw [List.mem_toFinset] at ha ⊢
    have hpos : 0 < evs.count ⟨flipKind a.kind, a.target⟩ := by
      rw [count_flip evs h a]
      exact List.count_pos_iff.mpr ha
    exact List.count_pos_iff.mp hpos
  · intro a ha
    show (⟨flipKind (flipKind a.kind), a.target⟩ : DragEvent) = a
    rw [flipKind_flipKind]

/-! Elements traversed by a pass are the root or carry the target class. -/

theorem resolveTargets_mem (dom : Dom) (t x : Elem) (hx : x ∈ resolveTargets dom t) :
    x = dom.root ∨ dom.isTarget x = true := by
  unfold resolveTargets at hx
  by_cases hr : dom.root ∈ (dom.chain t).filter dom.isTarget
  · rw [if_pos hr] at hx
    exact Or.inr (List.of_mem_filter hx)
  · rw [if_neg hr] at hx
    rcases List.mem_cons.mp hx with hx | hx
    · exact Or.inl hx
    · exact Or.inr (List.of_mem_filter hx)

theorem resolveTargets_count_one (dom : Dom) (t x : Elem) (hnd : (dom.chain t).Nodup)
    (hx : x ∈ dom.chain t) (ht : dom.isTarget x = true) (hxr : x ≠ dom.root) :
    (resolveTargets dom t).count x = 1 := by
  unfold resolveTargets
  have hcs : ((dom.chain t).filter dom.isTarget).count x = 1 := by
    rw [List.count_filter (by simpa using ht)]
    exact List.count_eq_one_of_mem hnd hx
  by_cases hr : dom.root ∈ (dom.chain t).filter dom.isTarget
  · rw [if_pos hr]
    exact hcs
  · rw [if_neg hr, List.count_cons_of_ne hxr]
    exact hcs

/-! Invariant: a single handler's isDragging flag always equals the sign
test of the root counter, since every traversed root element reassigns it
from the freshly written counter and nothing else touches it. -/

def DragTracks (dom : Dom) (s : DataMap × Comp) : Prop :=
  s.2.isDragging = decide (0 < dragcountOf (s.1 dom.root))

theorem dragTracks_applyElem (dom : Dom) (ev : DragEvent) (s : DataMap × Comp) (x : Elem)
    (h : DragTracks dom s) : DragTracks dom (applyElem dom ev s x) := by
  unfold DragTracks at h ⊢
  rcases eq_or_ne x dom.root with hx | hx
  · subst hx
    by_cases hc : 0 < dragcountOf (s.1 dom.root) + offsetInt ev.kind
    · simp [applyElem, hc, dragcountOf_dataSet]
    · simp [applyElem, hc, dragcountOf_dataSet]
  · have hx2 : dom.root ≠ x := Ne.symm hx
    by_cases hc : 0 < dragcountOf (s.1 x) + offsetInt ev.kind
    · simp [applyElem, hc, hx, hx2, h]
    · simp [applyElem, hc, hx, hx2, h]

theorem dragTracks_foldl (dom : Dom) (ev : DragEvent) (l : List Elem) (s : DataMap × Comp)
    (h : DragTracks dom s) : DragTracks dom (l.foldl (applyElem dom ev) s) := by
  induction l generalizing s with
  | nil => exact h
  | cons x xs ih => exact ih _ (dragTracks_applyElem dom ev s x h)

theorem dragTracks_run1 (dom : Dom) (evs : List DragEvent) (s : DataMap × Comp)
    (h : DragTracks dom s) : DragTracks dom (run1 dom evs s) := by
  induction evs generalizing s with
  | nil => exact h
  | cons e es ih => exact ih _ (dragTracks_foldl dom e _ s h)

/-! Invariant: whenever a single handler's isDraggingOver flag is true,
some non-root target element has a positive counter, because the flag is
only ever assigned from the freshly written counter of such an element. -/

def OverWitness (dom : Dom) (s : DataMap × Comp) : Prop :=
  s.2.isDraggingOver = true →
    ∃ el, dom.isTarget el = true ∧ el ≠ dom.root ∧ 0 < dragcountOf (s.1 el)

theorem overWitness_applyElem (dom : Dom) (ev : DragEvent) (s : DataMap × Comp) (x : Elem)
    (hx : x = dom.root ∨ dom.isTarget x = true) (h : OverWitness dom s) :
    OverWitness dom (applyElem dom ev s x) := by
  unfold OverWitness at h ⊢
  rcases eq_or_ne x dom.root with hroot | hroot
  · subst hroot
    intro hov
    have hov2 : s.2.isDraggingOver = true := by
      by_cases hc : 0 < dragcountOf (s.1 dom.root) + offsetInt ev.kind
      · simpa [applyElem, hc] using hov
      · simpa [applyElem, hc] using hov
    obtain ⟨el, ht, hne, hpos⟩ := h hov2
    refine ⟨el, ht, hne, ?_⟩
    simpa [applyElem, hne] using hpos
  · have ht : dom.isTarget x = true := hx.resolve_left hroot
    intro hov
    by_cases hc : 0 < dragcountOf (s.1 x) + offsetInt ev.kind
    · refine ⟨x, ht, hroot, ?_⟩
      simpa [applyElem, dragcountOf_dataSet] using hc
    · exfalso
      have hov3 : (applyElem dom ev s x).2.isDraggingOver = false := by
        simp [applyElem, hc, hroot]
      rw [hov3] at hov
      exact Bool.false_ne_true hov

theorem overWitness_foldl (dom : Dom) (ev : DragEvent) (l : List Elem) (s : DataMap × Comp)
    (hl : ∀ x ∈ l, x = dom.root ∨ dom.isTarget x = true) (h : OverWitness dom s) :
    OverWitness dom (l.foldl (applyElem dom ev) s) := by
  induction l generalizing s with
  | nil => exact h
  | cons x xs ih =>
      refine ih _ (fun y hy => hl y (List.mem_cons_of_mem x hy)) ?_
      exact overWitness_applyElem dom ev s x (hl x (List.mem_cons_self x xs)) h

theorem overWitness_calc (dom : Dom) (ev : DragEvent) (s : DataMap × Comp)
    (h : OverWitness dom s) : OverWitness dom (calculateDropCount dom ev s) :=
  overWitness_foldl dom ev _ s (fun x hx => resolveTargets_mem dom ev.target x hx) h

theorem overWitness_run1 (dom : Dom) (evs : List DragEvent) (s : DataMap × Comp)
    (h : OverWitness dom s) : OverWitness dom (run1 dom evs s) := by
  induction evs generalizing s with
  | nil => exact h
  | cons e es ih => exact ih _ (overWitness_calc dom e s h)

/-! With exactly one bound handler, whole-page dispatch coincides with
running that handler alone. -/

theorem dispatch_single (dom : Dom) (evs : List DragEvent) (i : Nat) (p : Page)
    (hreg : p.registry = [i]) :
    (dispatchEvents dom evs p).data = (run1 dom evs (p.data, p.comps i)).1 ∧
    (dispatchEvents dom evs p).comps i = (run1 dom evs (p.data, p.comps i)).2 ∧
    (dispatchEvents dom evs p).registry = [i] := by
  induction evs generalizing p with
  | nil => exact ⟨rfl, rfl, hreg⟩
  | cons e es ih =>
      have hd1 : (dispatchEvent dom e p).data = (calculateDropCount dom e (p.data, p.comps i)).1 := by
        unfold dispatchEvent
        rw [hreg]
        rfl
      have hc1 : (dispatchEvent dom e p).comps i =
          (calculateDropCount dom e (p.data, p.comps i)).2 := by
        unfold dispatchEvent
        rw [hreg]
        simp
      have hr1 : (dispatchEvent dom e p).registry = [i] := by
        unfold dispatchEvent
        rw [hreg]
        show p.registry = [i]
        exact hreg
      obtain ⟨hd, hc, hr⟩ := ih (dispatchEvent dom e p) hr1
      rw [hd1, hc1] at hd hc
      exact ⟨hd, hc, hr⟩

/-! Each bound handler applies the same per-element delta, so one
dispatched event moves a counter by the delta times the number of
registrations. -/

theorem dispatch_count (dom : Dom) (ev : DragEvent) (p : Page) (el : Elem) :
    dragcountOf ((dispatchEvent dom ev p).data el) =
      dragcountOf (p.data el) +
        offsetInt ev.kind * ((resolveTargets dom ev.target).count el : Int) *
          (p.registry.length : Int) := by
  show dragcountOf ((p.registry.foldl _ p).data el) = _
  have key : ∀ (l : List Nat) (q : Page),
      dragcountOf ((l.foldl
          (fun q i =>
            let s := calculateDropCount dom ev (q.data, q.comps i)
            { q with data := s.1, comps := fun j => if j = i then s.2 else q.comps j })
          q).data el) =
        dragcountOf (q.data el) +
          offsetInt ev.kind * ((resolveTargets dom ev.target).count el : Int) *
            (l.length : Int) := by
    intro l
    induction l with
    | nil => intro q; simp
    | cons x xs ih =>
        intro q
        rw [List.foldl_cons, ih, dragcountOf_calc]
        simp only [List.length_cons]
        push_cast
        ring
  exact key p.registry p

/-! Claim C1. -/

/-- C1 evaluation at the failing input: two sibling targets, element 1
(instance 10) and element 2 (instance 20), both bound on the root scope.
One dragenter on element 1 sets instance 20's own isDraggingOver flag to
true even though element 2's own counter is still 0, because instance 20's
root-scoped handler also runs and calls didDragOver on itself for element
1 of the event's chain. Both instances do see the root-wide flag true. The
claim requires instance 20's own flag to stay false and each flag to equal
the sign of its own counter, which this run refutes. -/
theorem c1_sibling_hover_leak :
    ((dispatchEvent domSib ⟨EvKind.enter, 1⟩ (initialPage [10, 20])).comps 20).isDraggingOver
        = true ∧
    dragcountOf ((dispatchEvent domSib ⟨EvKind.enter, 1⟩ (initialPage [10, 20])).data 2) = 0 ∧
    ((dispatchEvent domSib ⟨EvKind.enter, 1⟩ (initialPage [10, 20])).comps 10).isDraggingOver
        = true ∧
    ((dispatchEvent domSib ⟨EvKind.enter, 1⟩ (initialPage [10, 20])).comps 10).isDragging = true ∧
    ((dispatchEvent domSib ⟨EvKind.enter, 1⟩ (initialPage [10, 20])).comps 20).isDragging = true := by
  decide

/-! Claim C2. -/

/-- Element data of the sole target after one dragenter over it, produced
by the handler itself. -/
def c2Data : ElemData :=
  (calculateDropCount domSib ⟨EvKind.enter, 1⟩ ((fun _ => []), initComp)).1 1

/-- C2 evaluation at the failing input: after one dragenter over the
target, its hover counter (data key dragcount) is 1, yet the dragOver
handler reports dropEffect none, because getDropEffect reads the key
dropcount which nothing ever writes. The claim (and the source's own doc
comment on getDropEffect) requires copy whenever the hover counter is
positive. The handler does suppress the default action. -/
theorem c2_dropeffect_key_mismatch :
    dragcountOf c2Data = 1 ∧
    dataGet c2Data dropKey = none ∧
    dragOver c2Data = { preventDefault := true, dropEffect := "none" } := by
  decide

/-! Claim C3. -/

/-- C3: after a drop carrying at least one file, every tracked element
(each file-drop-target element and the root) has its hover counter
removed, and both the instance's own hover flag and the page-wide dragging
flag are false — whatever the counters and flags were before the drop. -/
theorem c3_post_drop_reset (dom : Dom) (cfg : Config) (d : DataMap) (c : Comp)
    (files : List File) (h : files ≠ []) :
    (∀ el, dom.isTarget el = true ∨ el = dom.root →
        dataGet ((drop dom cfg d c files).data el) dragKey = none) ∧
    ((drop dom cfg d c files).comp).isDraggingOver = false ∧
    ((drop dom cfg d c files).comp).isDragging = false := by
  have hlen : ¬ files.length = 0 := by simpa using h
  refine ⟨?_, ?_, ?_⟩
  · intro el hel
    simp [drop, hlen, hel, dataGet_dataRemove]
  · rcases hb : cfg.allowMultiple with _ | _ <;> simp [drop, hlen, hb]
  · rcases hb : cfg.allowMultiple with _ | _ <;> simp [drop, hlen, hb]

/-- C3 witness: a concrete drop of one file onto a page whose counters are
all 3 and whose flags are all true clears the counters of the target
element and the root and leaves both flags false. -/
theorem c3_post_drop_reset_witness :
    ([⟨0, "text/plain"⟩] : List File) ≠ [] ∧
    dataGet ((drop domSib ⟨false, fun _ => true⟩ (fun _ => [(dragKey, 3)])
        { initComp with isDraggingOver := true, isDragging := true }
        [⟨0, "text/plain"⟩]).data 1) dragKey = none ∧
    dataGet ((drop domSib ⟨false, fun _ => true⟩ (fun _ => [(dragKey, 3)])
        { initComp with isDraggingOver := true, isDragging := true }
        [⟨0, "text/plain"⟩]).data 0) dragKey = none ∧
    ((drop domSib ⟨false, fun _ => true⟩ (fun _ => [(dragKey, 3)])
        { initComp with isDraggingOver := true, isDragging := true }
        [⟨0, "text/plain"⟩]).comp).isDraggingOver = false ∧
    ((drop domSib ⟨false, fun _ => true⟩ (fun _ => [(dragKey, 3)])
        { initComp with isDraggingOver := true, isDragging := true }
        [⟨0, "text/plain"⟩]).comp).isDragging = false := by
  have h : ([⟨0, "text/plain"⟩] : List File) ≠ [] := by decide
  have hmain := c3_post_drop_reset domSib ⟨false, fun _ => true⟩ (fun _ => [(dragKey, 3)])
    { initComp with isDraggingOver := true, isDragging := true } [⟨0, "text/plain"⟩] h
  refine ⟨h, ?_, ?_, hmain.2.1, hmain.2.2⟩
  · exact hmain.1 1 (Or.inl (by decide))
  · exact hmain.1 0 (Or.inr (by decide))

/-! Claim C6. -/

/-- C6: a drop carrying zero files performs the counter and flag reset and
nothing else: isDropped, file and files keep their prior values, no
callback of either kind is invoked, and the data change is exactly the
removal of every tracked element's counter. -/
theorem c6_empty_drop_noop (dom : Dom) (cfg : Config) (d : DataMap) (c : Comp) :
    (drop dom cfg d c []).comp = { c with isDraggingOver := false, isDragging := false } ∧
    (drop dom cfg d c []).comp.isDropped = c.isDropped ∧
    (drop dom cfg d c []).comp.file = c.file ∧
    (drop dom cfg d c []).comp.files = c.files ∧
    (drop dom cfg d c []).invalidCalls = [] ∧
    (drop dom cfg d c []).droppedCalls = [] ∧
    (drop dom cfg d c []).data =
      (fun e => if dom.isTarget e || e = dom.root then dataRemove (d e) dragKey else d e) := by
  exact ⟨rfl, rfl, rfl, rfl, rfl, rfl, rfl⟩

/-! Claim C10. -/

/-- C10: the derived isEmpty signal is true exactly when isLoading and
isLoaded are both false, and it depends on nothing but those two fields:
two component states agreeing on isLoading and isLoaded have the same
isEmpty, whatever their drag, hover and drop state. -/
theorem c10_isEmpty_negation (c c' : Comp) :
    (isEmpty c = true ↔ (c.isLoading = false ∧ c.isLoaded = false)) ∧
    (c'.isLoading = c.isLoading → c'.isLoaded = c.isLoaded → isEmpty c' = isEmpty c) := by
  constructor
  · rcases h1 : c.isLoading with _ | _ <;> rcases h2 : c.isLoaded with _ | _ <;>
      simp [isEmpty, h1, h2]
  · intro h1 h2
    simp [isEmpty, h1, h2]

/-- C10 witness: the theorem applied at a fresh component and at the same
component with every drag, hover and drop flag toggled. -/
theorem c10_isEmpty_negation_witness :
    isEmpty initComp = true ∧
    isEmpty { initComp with isDraggingOver := true, isDragging := true, isDropped := true }
      = isEmpty initComp := by
  constructor
  · exact (c10_isEmpty_negation initComp initComp).1.mpr ⟨rfl, rfl⟩
  · exact (c10_isEmpty_negation initComp
      { initComp with isDraggingOver := true, isDragging := true, isDropped := true }).2 rfl rfl

/-! Claim C4. -/

/-- C4: on a drop carrying more than one file with allowMultiple false,
the truncation keeps exactly the first file in browser order; exactly one
callback fires in total (the invalid notification or the accepted
delivery) and it carries that first file, so the remaining files trigger
no callback at all; the exposed single file output involves only the
first file. -/
theorem c4_single_file_coercion (dom : Dom) (cfg : Config) (d : DataMap) (c : Comp)
    (f g : File) (rest : List File) (hm : cfg.allowMultiple = false) :
    coerceFiles cfg.allowMultiple (f :: g :: rest) = [f] ∧
    (drop dom cfg d c (f :: g :: rest)).invalidCalls ++
      (drop dom cfg d c (f :: g :: rest)).droppedCalls = [f] ∧
    (drop dom cfg d c (f :: g :: rest)).comp.file =
      (if cfg.typeMatches f.ftype then some f else none) := by
  have hco : coerceFiles cfg.allowMultiple (f :: g :: rest) = [f] := by
    have hl : 1 < (f :: g :: rest).length := by
      simp
    simp [coerceFiles, hm, hl]
  have hco2 : coerceFiles false (f :: g :: rest) = [f] := by
    rw [← hm]
    exact hco
  refine ⟨hco, ?_, ?_⟩
  · rcases hf : cfg.typeMatches f.ftype with _ | _ <;>
      simp [drop, hco2, hf, hm]
  · rcases hf : cfg.typeMatches f.ftype with _ | _ <;>
      simp [drop, hco2, hf, hm]

/-- C4 witness: dropping three concrete files on a single-file target
whose pattern accepts everything delivers exactly the first file. -/
theorem c4_single_file_coercion_witness :
    (⟨false, fun _ => true⟩ : Config).allowMultiple = false ∧
    coerceFiles false [⟨0, "image/png"⟩, ⟨1, "text/plain"⟩, ⟨2, "image/gif"⟩] = [⟨0, "image/png"⟩] ∧
    (drop domSib ⟨false, fun _ => true⟩ (fun _ => []) initComp
        [⟨0, "image/png"⟩, ⟨1, "text/plain"⟩, ⟨2, "image/gif"⟩]).invalidCalls ++
      (drop domSib ⟨false, fun _ => true⟩ (fun _ => []) initComp
        [⟨0, "image/png"⟩, ⟨1, "text/plain"⟩, ⟨2, "image/gif"⟩]).droppedCalls
      = [⟨0, "image/png"⟩] ∧
    (drop domSib ⟨false, fun _ => true⟩ (fun _ => []) initComp
        [⟨0, "image/png"⟩, ⟨1, "text/plain"⟩, ⟨2, "image/gif"⟩]).comp.file
      = some ⟨0, "image/png"⟩ := by
  have hmain := c4_single_file_coercion domSib ⟨false, fun _ => true⟩ (fun _ => []) initComp
    ⟨0, "image/png"⟩ ⟨1, "text/plain"⟩ [⟨2, "image/gif"⟩] rfl
  exact ⟨rfl, hmain.1, hmain.2.1, hmain.2.2⟩

/-! Claim C5. -/

/-- C5: on any drop carrying at least one file, the invalid notification
fires exactly once per remaining file (after the allowMultiple truncation)
whose type fails the pattern, in list order and without aborting the
others; the accepted deliveries are exactly the remaining files that
matched, in their original order; and the exposed files (respectively
file) output is exactly the matching files in original order (respectively
the first matching file, if any). -/
theorem c5_type_filtering (dom : Dom) (cfg : Config) (d : DataMap) (c : Comp)
    (files : List File) (h : files ≠ []) :
    (drop dom cfg d c files).invalidCalls =
      (coerceFiles cfg.allowMultiple files).filter (fun f => !cfg.typeMatches f.ftype) ∧
    (∀ x : File, (drop dom cfg d c files).invalidCalls.count x =
      (if cfg.typeMatches x.ftype then 0
       else (coerceFiles cfg.allowMultiple files).count x)) ∧
    (drop dom cfg d c files).droppedCalls =
      (coerceFiles cfg.allowMultiple files).filter (fun f => cfg.typeMatches f.ftype) ∧
    (if cfg.allowMultiple then
      (drop dom cfg d c files).comp.files =
        some ((coerceFiles cfg.allowMultiple files).filter (fun f => cfg.typeMatches f.ftype))
     else
      (drop dom cfg d c files).comp.file =
        ((coerceFiles cfg.allowMultiple files).filter (fun f => cfg.typeMatches f.ftype)).head?) := by
  have hlen : ¬ files.length = 0 := by simpa using h
  have hinv : (drop dom cfg d c files).invalidCalls =
      (coerceFiles cfg.allowMultiple files).filter (fun f => !cfg.typeMatches f.ftype) := by
    rcases hb : cfg.allowMultiple with _ | _ <;> simp [drop, hlen, hb]
  refine ⟨hinv, ?_, ?_, ?_⟩
  · intro x
    rw [hinv]
    rcases hx : cfg.typeMatches x.ftype with _ | _
    · rw [List.count_filter (by simp [hx])]
      simp
    · rw [if_pos rfl, List.count_eq_zero]
      intro hmem
      have h2 := List.of_mem_filter hmem
      simp [hx] at h2
  · rcases hb : cfg.allowMultiple with _ | _ <;> simp [drop, hlen, hb]
  · rcases hb : cfg.allowMultiple with _ | _ <;> simp [drop, hlen, hb]

/-- C5 witness: dropping a PNG and a plain-text file on a multi-file
target whose pattern accepts only image types notifies once with the text
file and exposes exactly the PNG. -/
theorem c5_type_filtering_witness :
    ([⟨0, "image/png"⟩, ⟨1, "text/plain"⟩] : List File) ≠ [] ∧
    (drop domSib ⟨true, fun s => s == "image/png"⟩ (fun _ => []) initComp
        [⟨0, "image/png"⟩, ⟨1, "text/plain"⟩]).invalidCalls = [⟨1, "text/plain"⟩] ∧
    (drop domSib ⟨true, fun s => s == "image/png"⟩ (fun _ => []) initComp
        [⟨0, "image/png"⟩, ⟨1, "text/plain"⟩]).invalidCalls.count ⟨1, "text/plain"⟩ = 1 ∧
    (drop domSib ⟨true, fun s => s == "image/png"⟩ (fun _ => []) initComp
        [⟨0, "image/png"⟩, ⟨1, "text/plain"⟩]).droppedCalls = [⟨0, "image/png"⟩] ∧
    (drop domSib ⟨true, fun s => s == "image/png"⟩ (fun _ => []) initComp
        [⟨0, "image/png"⟩, ⟨1, "text/plain"⟩]).comp.files = some [⟨0, "image/png"⟩] := by
  have h : ([⟨0, "image/png"⟩, ⟨1, "text/plain"⟩] : List File) ≠ [] := by decide
  have hmain := c5_type_filtering domSib ⟨true, fun s => s == "image/png"⟩ (fun _ => [])
    initComp [⟨0, "image/png"⟩, ⟨1, "text/plain"⟩] h
  refine ⟨h, ?_, ?_, ?_, ?_⟩
  · rw [hmain.1]
    decide
  · rw [hmain.2.1 ⟨1, "text/plain"⟩]
    decide
  · rw [hmain.2.2.1]
    decide
  · have hfiles := hmain.2.2.2
    rw [if_pos rfl] at hfiles
    rw [hfiles]
    decide

/-! Claim C7. -/

/-- C7 counterexample: with two sibling instances registered (as the claim
permits — it quantifies over all enter/leave sequences of a page), the per
element balanced sequence enter 1, enter 2, leave 1, leave 2 ends with
every counter back at 0 but with the first instance's own hover flag and
root flag still true, because both root-scoped handlers re-process every
event and overwrite their own flags from whichever element the chain ends
with. The claim requires both flags of every target to be false after any
balanced sequence. -/
theorem c7_balanced_counterexample :
    Balanced [⟨EvKind.enter, 1⟩, ⟨EvKind.enter, 2⟩, ⟨EvKind.leave, 1⟩, ⟨EvKind.leave, 2⟩] ∧
    ((dispatchEvents domSib
        [⟨EvKind.enter, 1⟩, ⟨EvKind.enter, 2⟩, ⟨EvKind.leave, 1⟩, ⟨EvKind.leave, 2⟩]
        (initialPage [10, 20])).comps 10).isDraggingOver = true ∧
    ((dispatchEvents domSib
        [⟨EvKind.enter, 1⟩, ⟨EvKind.enter, 2⟩, ⟨EvKind.leave, 1⟩, ⟨EvKind.leave, 2⟩]
        (initialPage [10, 20])).comps 10).isDragging = true ∧
    dragcountOf ((dispatchEvents domSib
        [⟨EvKind.enter, 1⟩, ⟨EvKind.enter, 2⟩, ⟨EvKind.leave, 1⟩, ⟨EvKind.leave, 2⟩]
        (initialPage [10, 20])).data 0) = 0 ∧
    dragcountOf ((dispatchEvents domSib
        [⟨EvKind.enter, 1⟩, ⟨EvKind.enter, 2⟩, ⟨EvKind.leave, 1⟩, ⟨EvKind.leave, 2⟩]
        (initialPage [10, 20])).data 1) = 0 ∧
    dragcountOf ((dispatchEvents domSib
        [⟨EvKind.enter, 1⟩, ⟨EvKind.enter, 2⟩, ⟨EvKind.leave, 1⟩, ⟨EvKind.leave, 2⟩]
        (initialPage [10, 20])).data 2) = 0 := by
  constructor
  · intro t
    by_cases h1 : t = 1 <;> by_cases h2 : t = 2 <;>
      simp_all [List.count_cons, DragEvent.mk.injEq]
  · refine ⟨by decide, by decide, by decide, by decide, by decide⟩

/-- C7 (amended): for a page with a single registered target instance, any
sequence of enter/leave events that is pairwise balanced per element ends
with every element's hover counter equal to 0 and with both of that
instance's hover flags (its own isDraggingOver and the page-wide
isDragging) false. -/
theorem c7_balanced_single_instance_reset (dom : Dom) (i : Nat) (evs : List DragEvent)
    (h : Balanced evs) :
    (∀ el, dragcountOf ((dispatchEvents dom evs (initialPage [i])).data el) = 0) ∧
    ((dispatchEvents dom evs (initialPage [i])).comps i).isDraggingOver = false ∧
    ((dispatchEvents dom evs (initialPage [i])).comps i).isDragging = false := by
  obtain ⟨hd, hc, -⟩ := dispatch_single dom evs i (initialPage [i]) rfl
  have hinit : ((initialPage [i]).data, (initialPage [i]).comps i) = ((fun _ => []), initComp) :=
    rfl
  rw [hinit] at hd hc
  have hcount : ∀ el, dragcountOf ((run1 dom evs ((fun _ => []), initComp)).1 el) = 0 := by
    intro el
    rw [dragcountOf_run1, balanced_netDelta dom evs el h]
    simp [dragcountOf, dataGet]
  have hcounts : ∀ el, dragcountOf ((dispatchEvents dom evs (initialPage [i])).data el) = 0 := by
    intro el
    rw [hd]
    exact hcount el
  refine ⟨hcounts, ?_, ?_⟩
  · have hw : OverWitness dom (run1 dom evs ((fun _ => []), initComp)) := by
      refine overWitness_run1 dom evs _ ?_
      intro hfalse
      exact absurd hfalse (by simp [initComp])
    rw [hc]
    rcases hov : (run1 dom evs ((fun _ => []), initComp)).2.isDraggingOver with _ | _
    · rfl
    · obtain ⟨el, -, -, hpos⟩ := hw hov
      have hzero := hcount el
      omega
  · have ht : DragTracks dom (run1 dom evs ((fun _ => []), initComp)) := by
      refine dragTracks_run1 dom evs _ ?_
      simp [DragTracks, initComp, dragcountOf, dataGet]
    rw [hc, ht]
    have hzero := hcount dom.root
    simp [hzero]

/-- C7 witness: the amended theorem applied to the concrete balanced
sequence enter 1, leave 1 on a page with the single instance 5. -/
theorem c7_balanced_single_instance_reset_witness :
    Balanced [⟨EvKind.enter, 1⟩, ⟨EvKind.leave, 1⟩] ∧
    dragcountOf ((dispatchEvents domSib [⟨EvKind.enter, 1⟩, ⟨EvKind.leave, 1⟩]
        (initialPage [5])).data 1) = 0 ∧
    ((dispatchEvents domSib [⟨EvKind.enter, 1⟩, ⟨EvKind.leave, 1⟩]
        (initialPage [5])).comps 5).isDraggingOver = false ∧
    ((dispatchEvents domSib [⟨EvKind.enter, 1⟩, ⟨EvKind.leave, 1⟩]
        (initialPage [5])).comps 5).isDragging = false := by
  have hb : Balanced [⟨EvKind.enter, 1⟩, ⟨EvKind.leave, 1⟩] := by
    intro t
    by_cases h1 : t = 1 <;> simp_all [List.count_cons, DragEvent.mk.injEq]
  have hmain := c7_balanced_single_instance_reset domSib 5 _ hb
  exact ⟨hb, hmain.1 1, hmain.2.1, hmain.2.2⟩

/-! Claim C8. -/

/-- C8: when a child drop target sits inside a parent drop target (the
parent is in the child's resolved ancestor chain, each appearing once and
distinct from the root), a dragenter originating on the child increments
both the child's and the parent's hover counters by one, and the boundary
pair fired when the pointer crosses from the parent onto the child — a
dragenter on the child followed by the dragleave on the parent — leaves
the parent's counter net unchanged. -/
theorem c8_nested_counters (dom : Dom) (d : DataMap) (c : Comp) (p ch : Elem)
    (hndc : (dom.chain ch).Nodup) (hndp : (dom.chain p).Nodup)
    (hpch : p ∈ dom.chain ch) (hcch : ch ∈ dom.chain ch) (hpp : p ∈ dom.chain p)
    (htp : dom.isTarget p = true) (htc : dom.isTarget ch = true)
    (hpr : p ≠ dom.root) (hcr : ch ≠ dom.root) :
    dragcountOf ((calculateDropCount dom ⟨EvKind.enter, ch⟩ (d, c)).1 p) =
      dragcountOf (d p) + 1 ∧
    dragcountOf ((calculateDropCount dom ⟨EvKind.enter, ch⟩ (d, c)).1 ch) =
      dragcountOf (d ch) + 1 ∧
    dragcountOf ((run1 dom [⟨EvKind.enter, ch⟩, ⟨EvKind.leave, p⟩] (d, c)).1 p) =
      dragcountOf (d p) := by
  have hc1 : (resolveTargets dom ch).count p = 1 :=
    resolveTargets_count_one dom ch p hndc hpch htp hpr
  have hc2 : (resolveTargets dom ch).count ch = 1 :=
    resolveTargets_count_one dom ch ch hndc hcch htc hcr
  have hc3 : (resolveTargets dom p).count p = 1 :=
    resolveTargets_count_one dom p p hndp hpp htp hpr
  refine ⟨?_, ?_, ?_⟩
  · rw [dragcountOf_calc]
    simp [hc1, offsetInt]
  · rw [dragcountOf_calc]
    simp [hc2, offsetInt]
  · have hstep : run1 dom [⟨EvKind.enter, ch⟩, ⟨EvKind.leave, p⟩] (d, c) =
        calculateDropCount dom ⟨EvKind.leave, p⟩
          (calculateDropCount dom ⟨EvKind.enter, ch⟩ (d, c)) := rfl
    rw [hstep, dragcountOf_calc, dragcountOf_calc]
    simp [hc1, hc3, offsetInt]

/-- C8 witness: the theorem applied to the concrete nested page (child
element 2 inside parent element 1 under root 0). -/
theorem c8_nested_counters_witness :
    (domNest.chain 2).Nodup ∧
    dragcountOf ((calculateDropCount domNest ⟨EvKind.enter, 2⟩ ((fun _ => []), initComp)).1 1) =
      dragcountOf ((fun _ => ([] : ElemData)) 1) + 1 ∧
    dragcountOf ((calculateDropCount domNest ⟨EvKind.enter, 2⟩ ((fun _ => []), initComp)).1 2) =
      dragcountOf ((fun _ => ([] : ElemData)) 2) + 1 ∧
    dragcountOf ((run1 domNest [⟨EvKind.enter, 2⟩, ⟨EvKind.leave, 1⟩]
        ((fun _ => []), initComp)).1 1) = dragcountOf ((fun _ => ([] : ElemData)) 1) := by
  have hmain := c8_nested_counters domNest (fun _ => []) initComp 1 2
    (by decide) (by decide) (by decide) (by decide) (by decide)
    (by decide) (by decide) (by decide) (by decide)
  exact ⟨by decide, hmain.1, hmain.2.1, hmain.2.2⟩

/-! Claim C9. -/

/-- C9 counterexample: attaching instance 7 twice leaves two registrations
of its handler, and a single dragenter over the target element then moves
that element's hover counter by 2, not 1 — the counter delta is applied
twice, which the claim forbids. -/
theorem c9_attach_counterexample :
    (setupEventListeners 7 (setupEventListeners 7 (initialPage []))).registry = [7, 7] ∧
    dragcountOf ((dispatchEvent domSib ⟨EvKind.enter, 1⟩
        (setupEventListeners 7 (setupEventListeners 7 (initialPage [])))).data 1) = 2 ∧
    ¬ dragcountOf ((dispatchEvent domSib ⟨EvKind.enter, 1⟩
        (setupEventListeners 7 (setupEventListeners 7 (initialPage [])))).data 1) = 1 := by
  decide

/-- C9 (amended): attaching is appending, not idempotent: a second attach
of the same instance adds a second registration, and each dispatched
enter/leave event applies its per-element counter delta once per
registration — so after attaching an instance twice on top of any page,
one event moves each traversed element's counter by the delta times the
prior registration count plus two. -/
theorem c9_attach_appends (dom : Dom) (ev : DragEvent) (p : Page) (i : Nat) (el : Elem) :
    (setupEventListeners i (setupEventListeners i p)).registry = p.registry ++ [i, i] ∧
    dragcountOf ((dispatchEvent dom ev (setupEventListeners i (setupEventListeners i p))).data el) =
      dragcountOf (p.data el) +
        offsetInt ev.kind * ((resolveTargets dom ev.target).count el : Int) *
          ((p.registry.length : Int) + 2) := by
  constructor
  · simp [setupEventListeners]
  · rw [dispatch_count]
    simp [setupEventListeners]

end FileDropTarget
